import Mathlib

/-!
Verification of the modified Vision Transformer in `softmax-1.py`
(value-residual attention correction + class-token feedback loop).

Tensors are embedded as total functions from natural-number indices to
rationals; every tensor-producing operation additionally records the
shape the PyTorch code would produce, in the `T3S`/`T4S` wrappers.
Transcendental scalar functions (exp, gelu, tanh, the reciprocal square
root used by layer norm) are abstracted as parameters in `ScalarOps`,
since no claim depends on their numeric values.  Fallible code paths
(list indexing, the missing-`v0` failure, the constructor assertion)
are embedded in the `Except String` monad.
-/

namespace ViTMBO

abbrev Vec := ℕ → ℚ
abbrev Mat := ℕ → ℕ → ℚ
abbrev Ten3 := ℕ → ℕ → ℕ → ℚ
abbrev Ten4 := ℕ → ℕ → ℕ → ℕ → ℚ

/-- Abstract scalar functions used by the numeric layers.  The forward
computation is parametric in these; claims are structural and hold for
every choice. -/
structure ScalarOps where
  exp : ℚ → ℚ
  gelu : ℚ → ℚ
  tanh : ℚ → ℚ
  rsqrt : ℚ → ℚ

/-- A 3-dimensional tensor together with its shape (batch, tokens, channels). -/
structure T3S where
  B : ℕ
  N : ℕ
  C : ℕ
  data : Ten3

/-- A 4-dimensional tensor together with its shape. -/
structure T4S where
  d0 : ℕ
  d1 : ℕ
  d2 : ℕ
  d3 : ℕ
  data : Ten4

/-- Modelled from the spec: `nn.Linear` (an excluded torch collaborator),
`y = x Wᵀ + b` over an input of `inF` features. -/
structure LinearP where
  weight : Mat
  bias : Vec

def linApp (inF : ℕ) (L : LinearP) (x : Vec) : Vec :=
  fun o => (∑ i in Finset.range inF, L.weight o i * x i) + L.bias o

/-- Modelled from the spec: `nn.Dropout` on a 3-index tensor.  In
training mode with probability `p ≠ 0` it zeroes entries whose mask bit
is false and rescales kept entries by `1/(1-p)`; in eval mode (or with
`p = 0`) it is the identity. -/
def drop3 (training : Bool) (p : ℚ) (m : ℕ → ℕ → ℕ → Bool) (x : Ten3) : Ten3 :=
  cond training (if p = 0 then x else fun a b c => cond (m a b c) (x a b c / (1 - p)) 0) x

/-- Modelled from the spec: `nn.Dropout` on a 4-index tensor. -/
def drop4 (training : Bool) (p : ℚ) (m : ℕ → ℕ → ℕ → ℕ → Bool) (x : Ten4) : Ten4 :=
  cond training (if p = 0 then x else fun a b c d => cond (m a b c d) (x a b c d / (1 - p)) 0) x

/-- Modelled from the spec: timm `DropPath` (stochastic depth): during
training with probability `p ≠ 0` the whole residual branch is zeroed
per sample (and kept samples are rescaled); identity at inference or
when the probability is 0. -/
def dropPath (training : Bool) (p : ℚ) (keep : ℕ → Bool) (x : Ten3) : Ten3 :=
  cond training (if p = 0 then x else fun b n c => cond (keep b) (x b n c / (1 - p)) 0) x

/-- Parameters of a `nn.Conv1d`: weight shape (outCh, inCh, K), bias, and
the stride / padding / dilation configuration. -/
structure Conv1dP where
  inCh : ℕ
  K : ℕ
  stride : ℕ
  padding : ℕ
  dilation : ℕ
  weight : Ten3
  bias : Vec

/-- Zero-padded access into a length-`L` row. -/
def padded (padding L : ℕ) (row : Vec) : Vec :=
  fun p => if p < padding then 0 else if p - padding < L then row (p - padding) else 0

/-- Modelled from the spec: `F.conv1d` with an explicit weight tensor `w`,
on an input of `inCh` channels and length `L`. -/
def conv1dW (P : Conv1dP) (w : Ten3) (L : ℕ) (x : Mat) : Mat :=
  fun co n =>
    (∑ ci in Finset.range P.inCh, ∑ k in Finset.range P.K,
      w co ci k * padded P.padding L (fun m => x ci m) (n * P.stride + k * P.dilation))
    + P.bias co

/-- Forward application of the convolution (`self.g_conv(input)`). -/
def convApply (P : Conv1dP) (L : ℕ) (x : Mat) : Mat := conv1dW P P.weight L x

/-- Source `torch.flip(w, dims=[2])`: reversal along the kernel-position axis. -/
def flipKernel (K : ℕ) (w : Ten3) : Ten3 := fun co ci k => w co ci (K - 1 - k)

/-- Source `Attention.adjoint_conv`: convolution with the kernel-axis-reversed
weight, reusing the bias, stride, padding and dilation of the forward
convolution. -/
def adjointConv (P : Conv1dP) (L : ℕ) (x : Mat) : Mat :=
  conv1dW P (flipKernel P.K P.weight) L x

/-- Parameters of the `Attention` module from `softmax-1.py`. -/
structure AttentionP where
  numHeads : ℕ
  scale : ℚ
  qkv : LinearP
  proj : LinearP
  alpha : ℚ
  layerth : ℕ
  dim : ℕ
  gConv : Conv1dP
  attnDropP : ℚ
  projDropP : ℚ

/-- Source `Attention.__init__`.  Mirrors the Python failure modes: `dim % 0`
raises ZeroDivisionError, the assert rejects non-divisible pairs, and
`head_dim ** -0.5` raises ZeroDivisionError when `head_dim = 0`.  The
scale for a positive head dimension is `pnh head_dim`, with `pnh`
standing for the (abstract) real map `t ↦ t ** -0.5`. -/
def attnInit (pnh : ℕ → ℚ) (dim numHeads : ℕ) (qkvBias : Bool)
    (qkvW : Mat) (qkvB : Vec) (projW : Mat) (projB : Vec)
    (attnDrop projDrop : ℚ) (layerth : ℕ) (gW : Ten3) (gB : Vec) :
    Except String AttentionP :=
  if numHeads = 0 then .error "ZeroDivisionError: integer modulo by zero"
  else if dim % numHeads ≠ 0 then .error "AssertionError: dim should be divisible by num_heads"
  else if dim / numHeads = 0 then .error "ZeroDivisionError: 0.0 cannot be raised to a negative power"
  else .ok
    { numHeads := numHeads
      scale := pnh (dim / numHeads)
      qkv := ⟨qkvW, if qkvBias then qkvB else fun _ => 0⟩
      proj := ⟨projW, projB⟩
      alpha := 3/5
      layerth := layerth
      dim := dim
      gConv := ⟨dim / numHeads, 1, 1, 0, 1, gW, gB⟩
      attnDropP := attnDrop
      projDropP := projDrop }

/-- The flattened qkv projection, `self.qkv(x)`: at token (b, n), a vector
of `3*C` features. -/
def qkvOut (A : AttentionP) (Cd : ℕ) (x : Ten3) : Ten3 :=
  fun b n j => linApp Cd A.qkv (fun c => x b n c) j

/-- The query tensor after `reshape(B,N,3,H,C//H).permute(2,0,3,1,4)`. -/
def qTen (A : AttentionP) (Cd : ℕ) (x : Ten3) : Ten4 :=
  fun b h n d => qkvOut A Cd x b n (h * (Cd / A.numHeads) + d)

/-- The key tensor. -/
def kTen (A : AttentionP) (Cd : ℕ) (x : Ten3) : Ten4 :=
  fun b h n d => qkvOut A Cd x b n (A.numHeads * (Cd / A.numHeads) + h * (Cd / A.numHeads) + d)

/-- The value tensor. -/
def vTen (A : AttentionP) (Cd : ℕ) (x : Ten3) : Ten4 :=
  fun b h n d => qkvOut A Cd x b n (2 * (A.numHeads * (Cd / A.numHeads)) + h * (Cd / A.numHeads) + d)

/-- Source line `(q @ k.transpose(-2,-1)) * self.scale`. -/
def attnRaw (A : AttentionP) (Cd : ℕ) (x : Ten3) : Ten4 :=
  fun b h i j =>
    (∑ d in Finset.range (Cd / A.numHeads), qTen A Cd x b h i d * kTen A Cd x b h j d) * A.scale

/-- Source `attn.softmax(dim=-1)` over the last (key) axis of length `N`. -/
def attnSoft (ops : ScalarOps) (A : AttentionP) (Cd N : ℕ) (x : Ten3) : Ten4 :=
  fun b h i j =>
    ops.exp (attnRaw A Cd x b h i j) / (∑ j2 in Finset.range N, ops.exp (attnRaw A Cd x b h i j2))

/-- Source `reshape(B*H, N, hd).permute(0,2,1)` of a (B,H,N,hd) tensor: the
flattened batch-head index `g` splits as `(g / H, g % H)` and the
head-dimension axis becomes the channel axis. -/
def vResh (H : ℕ) (t : Ten4) : Ten3 :=
  fun g c n => t (g / H) (g % H) n c

/-- The value-residual correction term: lines 52-59 of the source.
`res = alpha * adjoint_conv(g_conv, v0_reshape - g_conv(v_reshape))`,
permuted and reshaped back to (B, H, N, hd). -/
def attnRes (A : AttentionP) (N : ℕ) (w v : Ten4) : Ten4 :=
  fun b h n d =>
    A.alpha *
      adjointConv A.gConv N
        (fun c m =>
          vResh A.numHeads w (b * A.numHeads + h) c m
            - convApply A.gConv N (vResh A.numHeads v (b * A.numHeads + h)) c m)
        d n

/-- The pre-projection attention output `(attn @ v) + res` (line 63),
with the attention weights already put through the attention dropout. -/
def attnPre (ops : ScalarOps) (training : Bool) (mA : ℕ → ℕ → ℕ → ℕ → Bool)
    (A : AttentionP) (x : T3S) (res : Ten4) : Ten4 :=
  fun b h n d =>
    (∑ j in Finset.range x.N,
      drop4 training A.attnDropP mA (attnSoft ops A x.C x.N x.data) b h n j
        * vTen A x.C x.data b h j d)
    + res b h n d

/-- Lines 63-67: merge heads (`transpose(1,2).reshape(B,N,C)`), apply the
output projection and the projection dropout. -/
def attnOutTS (ops : ScalarOps) (training : Bool) (mA : ℕ → ℕ → ℕ → ℕ → Bool)
    (mP : ℕ → ℕ → ℕ → Bool) (A : AttentionP) (x : T3S) (res : Ten4) : T3S :=
  ⟨x.B, x.N, x.C,
    drop3 training A.projDropP mP
      (fun b n c =>
        linApp x.C A.proj
          (fun c2 =>
            attnPre ops training mA A x res b (c2 / (x.C / A.numHeads)) n (c2 % (x.C / A.numHeads)))
          c)⟩

/-- The value tensor as returned by the layer-0 call, with the shape the
reshape/permute gives it: (B, num_heads, N, C // num_heads). -/
def attnVTS (A : AttentionP) (x : T3S) : T4S :=
  ⟨x.B, A.numHeads, x.N, x.C / A.numHeads, vTen A x.C x.data⟩

/-- Result of an attention call: layer 0 returns the pair `(x, v)`,
every other layer returns the output tensor only. -/
inductive AttnOut where
  | first (out : T3S) (v : T4S)
  | later (out : T3S)

/-- Source `Attention.forward` (lines 41-72).  For `layerth > 0` with `v0 = None`
the Python call fails (`None.reshape`); the `res` branch mirrors lines
51-61 and the return arity mirrors lines 69-72. -/
def attnForward (ops : ScalarOps) (training : Bool) (mA : ℕ → ℕ → ℕ → ℕ → Bool)
    (mP : ℕ → ℕ → ℕ → Bool) (A : AttentionP) (x : T3S) (v0 : Option T4S) :
    Except String AttnOut :=
  (if 0 < A.layerth then
      match v0 with
      | none => Except.error "AttributeError: NoneType object has no attribute reshape"
      | some w => Except.ok (attnRes A x.N w.data (vTen A x.C x.data))
    else Except.ok (fun _ _ _ _ => (0 : ℚ))).bind
    (fun res =>
      if A.layerth = 0 then
        .ok (.first (attnOutTS ops training mA mP A x res) (attnVTS A x))
      else .ok (.later (attnOutTS ops training mA mP A x res)))

/-- Modelled from the spec: `nn.LayerNorm` parameters (elementwise affine
weight `gamma`, bias `beta`, and epsilon). -/
structure LayerNormP where
  gamma : Vec
  beta : Vec
  eps : ℚ

/-- Modelled from the spec: layer normalisation over the last axis of
length `Cd`; `ops.rsqrt` abstracts `t ↦ 1/sqrt(t)`. -/
def lnRow (ops : ScalarOps) (Cd : ℕ) (P : LayerNormP) (x : Vec) : Vec :=
  fun c =>
    (x c - (∑ i in Finset.range Cd, x i) / Cd)
        * ops.rsqrt ((∑ i in Finset.range Cd, (x i - (∑ i2 in Finset.range Cd, x i2) / Cd) ^ 2) / Cd + P.eps)
        * P.gamma c
      + P.beta c

/-- Tokenwise layer normalisation of a 3-index tensor. -/
def ln3 (ops : ScalarOps) (Cd : ℕ) (P : LayerNormP) (x : Ten3) : Ten3 :=
  fun b n c => lnRow ops Cd P (fun c2 => x b n c2) c

/-- Parameters of a transformer `Block`. -/
structure BlockP where
  norm1 : LayerNormP
  norm2 : LayerNormP
  attn : AttentionP
  dropPathP : ℚ
  mlpFc1 : LinearP
  mlpFc2 : LinearP
  mlpHidden : ℕ
  mlpDropP : ℚ
  layerth : ℕ
  dim : ℕ

/-- Per-block parameter bundle handed to `blockInit` (the learned values
the constructors would initialise). -/
structure BlockParams where
  qkvW : Mat
  qkvB : Vec
  projW : Mat
  projB : Vec
  gW : Ten3
  gB : Vec
  n1g : Vec
  n1b : Vec
  n2g : Vec
  n2b : Vec
  fc1W : Mat
  fc1B : Vec
  fc2W : Mat
  fc2B : Vec

/-- Source `Block.__init__` (lines 86-97): builds the attention module (with
`proj_drop = drop`), the two layer norms and the MLP with hidden size
`int(dim * mlp_ratio)`. -/
def blockInit (pnh : ℕ → ℚ) (dim numHeads : ℕ) (mlpMult : ℚ) (qkvBias : Bool)
    (drop attnDrop dropPathRate eps : ℚ) (p : BlockParams) (layerth : ℕ) :
    Except String BlockP :=
  match attnInit pnh dim numHeads qkvBias p.qkvW p.qkvB p.projW p.projB attnDrop drop layerth p.gW p.gB with
  | .error e => .error e
  | .ok a => .ok
      { norm1 := ⟨p.n1g, p.n1b, eps⟩
        norm2 := ⟨p.n2g, p.n2b, eps⟩
        attn := a
        dropPathP := dropPathRate
        mlpFc1 := ⟨p.fc1W, p.fc1B⟩
        mlpFc2 := ⟨p.fc2W, p.fc2B⟩
        mlpHidden := (⌊mlpMult * dim⌋).toNat
        mlpDropP := drop
        layerth := layerth
        dim := dim }

/-- Per-forward-pass randomness: one mask per dropout site, indexed by
the layer it belongs to.  Eval-mode calls never read any of these. -/
structure Noise where
  posMask : ℕ → ℕ → ℕ → Bool
  attnMask : ℕ → ℕ → ℕ → ℕ → ℕ → Bool
  projMask : ℕ → ℕ → ℕ → ℕ → Bool
  mlp1Mask : ℕ → ℕ → ℕ → ℕ → Bool
  mlp2Mask : ℕ → ℕ → ℕ → ℕ → Bool
  dpAttnMask : ℕ → ℕ → Bool
  dpMlpMask : ℕ → ℕ → Bool

/-- Modelled from the spec: the timm `Mlp` block, `fc1 → GELU → dropout
→ fc2 → dropout`. -/
def mlpApp (ops : ScalarOps) (training : Bool) (m1 m2 : ℕ → ℕ → ℕ → Bool)
    (blk : BlockP) (x : Ten3) : Ten3 :=
  drop3 training blk.mlpDropP m2
    (fun b n c =>
      linApp blk.mlpHidden blk.mlpFc2
        (fun j => drop3 training blk.mlpDropP m1
          (fun b2 n2 j2 => ops.gelu (linApp blk.dim blk.mlpFc1 (fun c2 => x b2 n2 c2) j2)) b n j)
        c)

/-- Result of a block call: block 0 returns `(x, v0)`, later blocks
return `x` only (lines 109-112). -/
inductive BlockOut where
  | first (out : T3S) (v : T4S)
  | later (out : T3S)

/-- The two residual additions of `Block.forward` (lines 106-108):
`x = x + drop_path(x_)` followed by `x = x + drop_path(mlp(norm2(x)))`. -/
def blockTail (ops : ScalarOps) (training : Bool) (noise : Noise) (blk : BlockP)
    (xd x1 : Ten3) : Ten3 :=
  fun b n c =>
    (fun b2 n2 c2 => xd b2 n2 c2 + dropPath training blk.dropPathP (noise.dpAttnMask blk.layerth) x1 b2 n2 c2) b n c
      + dropPath training blk.dropPathP (noise.dpMlpMask blk.layerth)
          (mlpApp ops training (noise.mlp1Mask blk.layerth) (noise.mlp2Mask blk.layerth) blk
            (ln3 ops blk.dim blk.norm2
              (fun b2 n2 c2 => xd b2 n2 c2 + dropPath training blk.dropPathP (noise.dpAttnMask blk.layerth) x1 b2 n2 c2)))
          b n c

/-- Source `Block.forward` (lines 99-112).  Layer 0 calls attention without `v0`
and must receive the pair; later layers pass `v0` through and must
receive a single tensor.  A mismatched arity is the Python `TypeError`. -/
def blockForward (ops : ScalarOps) (training : Bool) (noise : Noise) (blk : BlockP)
    (x : T3S) (v0 : Option T4S) : Except String BlockOut :=
  let nx : T3S := ⟨x.B, x.N, x.C, ln3 ops blk.dim blk.norm1 x.data⟩
  if blk.layerth = 0 then
    match attnForward ops training (noise.attnMask blk.layerth) (noise.projMask blk.layerth) blk.attn nx none with
    | .error e => .error e
    | .ok (.later _) => .error "TypeError: cannot unpack non-sequence Tensor"
    | .ok (.first x1 v0out) =>
      .ok (.first ⟨x.B, x.N, x.C, blockTail ops training noise blk x.data x1.data⟩ v0out)
  else
    match attnForward ops training (noise.attnMask blk.layerth) (noise.projMask blk.layerth) blk.attn nx v0 with
    | .error e => .error e
    | .ok (.first _ _) => .error "TypeError: unsupported operand type for +"
    | .ok (.later x1) =>
      .ok (.later ⟨x.B, x.N, x.C, blockTail ops training noise blk x.data x1.data⟩)

/-- Parameters of the `VisionTransformer` orchestrator. -/
structure ViTP where
  embedDim : ℕ
  numClasses : ℕ
  numFeatures : ℕ
  numTokens : ℕ
  patchEmbed : T4S → T3S
  clsToken : Vec
  distToken : Option Vec
  posEmbed : Mat
  dropRate : ℚ
  blocks : List BlockP
  norm : LayerNormP
  preLogits : Option (ℕ × LinearP)
  head : Option LinearP
  reverseHead : Option LinearP
  distilled : Bool
  headDist : Option LinearP

/-- Arguments of `VisionTransformer.__init__`, together with the
parameter values the constructors would initialise.  `patchEmbedF` is
the excluded `PatchEmbed` collaborator (modelled from the spec: it maps
a (B, in_chans, H, W) image to (B, num_patches, embed_dim) tokens). -/
structure ViTArgs where
  pnh : ℕ → ℚ
  patchEmbedF : T4S → T3S
  numClasses : ℕ
  embedDim : ℕ
  depth : ℕ
  numHeads : ℕ
  mlpMult : ℚ
  qkvBias : Bool
  repSize : Option ℕ
  distilled : Bool
  dropRate : ℚ
  attnDropRate : ℚ
  dropPathRate : ℚ
  clsToken : Vec
  distTokenP : Vec
  posEmbed : Mat
  blockPs : ℕ → BlockParams
  normG : Vec
  normB : Vec
  plFcW : Mat
  plFcB : Vec
  headW : Mat
  headB : Vec
  revW : Mat
  revB : Vec
  hdW : Mat
  hdB : Vec

/-- Fail-fast monadic map used to build the block list. -/
def mapE {α β : Type} (f : α → Except String β) : List α → Except String (List β)
  | [] => .ok []
  | a :: l =>
    match f a with
    | .error e => .error e
    | .ok b =>
      match mapE f l with
      | .error e => .error e
      | .ok bs => .ok (b :: bs)

/-- Source `torch.linspace(0, r, d)[i]`: the stochastic-depth decay rule of
line 163. -/
def linspaceAt (r : ℚ) (d i : ℕ) : ℚ :=
  if d ≤ 1 then 0 else r * i / (d - 1)

/-- Source `VisionTransformer.__init__` (lines 122-191): builds `depth` blocks
with `layerth = i`, the final norm, the optional pre-logits layer, the
classifier head, the reverse head and the optional distillation pieces. -/
def viTInit (a : ViTArgs) : Except String ViTP :=
  match mapE
      (fun i =>
        blockInit a.pnh a.embedDim a.numHeads a.mlpMult a.qkvBias a.dropRate a.attnDropRate
          (linspaceAt a.dropPathRate a.depth i) (1/1000000) (a.blockPs i) i)
      (List.range a.depth) with
  | .error e => .error e
  | .ok blocks => .ok
      { embedDim := a.embedDim
        numClasses := a.numClasses
        numFeatures := match a.repSize, a.distilled with
          | some r, false => r
          | _, _ => a.embedDim
        numTokens := if a.distilled then 2 else 1
        patchEmbed := a.patchEmbedF
        clsToken := a.clsToken
        distToken := if a.distilled then some a.distTokenP else none
        posEmbed := a.posEmbed
        dropRate := a.dropRate
        blocks := blocks
        norm := ⟨a.normG, a.normB, 1/1000000⟩
        preLogits := match a.repSize, a.distilled with
          | some r, false => some (r, ⟨a.plFcW, a.plFcB⟩)
          | _, _ => none
        head := if 0 < a.numClasses then some ⟨a.headW, a.headB⟩ else none
        reverseHead := if 0 < a.numClasses then some ⟨a.revW, a.revB⟩ else none
        distilled := a.distilled
        headDist := if a.distilled then (if 0 < a.numClasses then some ⟨a.hdW, a.hdB⟩ else none) else none }

/-- Source `self.head` / `self.reverse_head` / `self.head_dist`: a linear map
when `num_classes > 0`, otherwise `nn.Identity`. -/
def headApp (inF : ℕ) (h : Option LinearP) (x : Vec) : Vec :=
  match h with
  | some L => linApp inF L x
  | none => x

/-- Source `self.pre_logits`: identity, or `fc` + tanh when a representation
size is configured (lines 174-181). -/
def preLogitsApp (ops : ScalarOps) (embedDim : ℕ) (pl : Option (ℕ × LinearP)) (x : Vec) : Vec :=
  match pl with
  | none => x
  | some rfc => fun j => ops.tanh (linApp embedDim rfc.2 x j)

/-- One iteration of the feedback loop (lines 242-244): run block `i`
with `v0`, compute the provisional class prediction from the post-block
class token, and overwrite the class-token slot with its reverse-head
projection.  A missing block index is the Python IndexError. -/
def feedbackStep (ops : ScalarOps) (training : Bool) (noise : Noise) (M : ViTP)
    (v0 : T4S) (x : T3S) (i : ℕ) : Except String T3S :=
  match M.blocks[i]? with
  | none => .error "IndexError: index out of range"
  | some blk =>
    match blockForward ops training noise blk x (some v0) with
    | .error e => .error e
    | .ok (.first _ _) => .error "TypeError: unsupported operand type for +"
    | .ok (.later x2) =>
      .ok ⟨x2.B, x2.N, x2.C,
        fun b n c =>
          if n = 0 then
            headApp M.numClasses M.reverseHead
              (fun q =>
                headApp M.numFeatures M.head
                  (preLogitsApp ops M.embedDim M.preLogits
                    (fun c2 => ln3 ops M.embedDim M.norm x2.data b 0 c2))
                  q)
              c
          else x2.data b n c⟩

/-- Result of `forward_features`: the pre-logits class-token features,
or the class/distillation token pair for distilled models. -/
inductive FeatOut where
  | single (f : Mat)
  | pair (fa fb : Mat)

/-- Lines 240-250 of `forward_features`: block 0 (capturing `v0`), the
hard-coded feedback loop `for i in range(1, 11)`, the final norm and the
class-token extraction, starting from the embedded token sequence `x1`. -/
def ffTail (ops : ScalarOps) (training : Bool) (noise : Noise) (M : ViTP)
    (x1 : T3S) : Except String FeatOut :=
  match M.blocks[0]? with
  | none => .error "IndexError: index out of range"
  | some blk0 =>
    match blockForward ops training noise blk0 x1 none with
    | .error e => .error e
    | .ok (.later _) => .error "TypeError: cannot unpack non-sequence Tensor"
    | .ok (.first x2 v0) =>
      match (List.range' 1 10).foldlM (feedbackStep ops training noise M v0) x2 with
      | .error e => .error e
      | .ok xF =>
        match M.distToken with
        | none =>
          .ok (.single (fun b j =>
            preLogitsApp ops M.embedDim M.preLogits
              (fun c => ln3 ops M.embedDim M.norm xF.data b 0 c) j))
        | some _ =>
          .ok (.pair (fun b c => ln3 ops M.embedDim M.norm xF.data b 0 c)
            (fun b c => ln3 ops M.embedDim M.norm xF.data b 1 c))

/-- Source `VisionTransformer.forward_features` (lines 232-250): patch embed,
class-token (and optional distillation-token) prepend, positional
embedding and positional dropout, then `ffTail`.  Note the feedback loop
bound inside: `for i in range(1, 11)` — a constant independent of the
configured depth. -/
def forwardFeatures (ops : ScalarOps) (training : Bool) (noise : Noise) (M : ViTP)
    (img : T4S) : Except String FeatOut :=
  let xp := M.patchEmbed img
  let x0 : T3S :=
    match M.distToken with
    | none => ⟨xp.B, xp.N + 1, xp.C, fun b n c => if n = 0 then M.clsToken c else xp.data b (n - 1) c⟩
    | some dt =>
      ⟨xp.B, xp.N + 2, xp.C,
        fun b n c => if n = 0 then M.clsToken c else if n = 1 then dt c else xp.data b (n - 2) c⟩
  let x1 : T3S :=
    ⟨x0.B, x0.N, x0.C,
      drop3 training M.dropRate noise.posMask (fun b n c => x0.data b n c + M.posEmbed n c)⟩
  ffTail ops training noise M x1

/-- Final result of `VisionTransformer.forward`: logits, or the pair of
logits a distilled model returns during training. -/
inductive OutT where
  | logits (f : Mat)
  | logitsPair (fa fb : Mat)

/-- Source `VisionTransformer.forward` (lines 252-263). -/
def viTForward (ops : ScalarOps) (training : Bool) (noise : Noise) (M : ViTP)
    (img : T4S) : Except String OutT :=
  match forwardFeatures ops training noise M img with
  | .error e => .error e
  | .ok fo =>
    if M.distilled then
      match fo with
      | .pair fa fb =>
        if training then
          .ok (.logitsPair (fun b q => headApp M.numFeatures M.head (fun j => fa b j) q)
            (fun b q => headApp M.embedDim M.headDist (fun j => fb b j) q))
        else
          .ok (.logits (fun b q =>
            (headApp M.numFeatures M.head (fun j => fa b j) q
              + headApp M.embedDim M.headDist (fun j => fb b j) q) / 2))
      | .single _ => .error "TypeError: tuple expected"
    else
      match fo with
      | .single f => .ok (.logits (fun b q => headApp M.numFeatures M.head (fun j => f b j) q))
      | .pair _ _ => .error "TypeError: unexpected tuple"

/-- Whether an `Except` computation completed without an exception. -/
def exOk {ε α : Type} : Except ε α → Bool
  | .ok _ => true
  | .error _ => false

lemma attnInit_ok {pnh : ℕ → ℚ} {dim H : ℕ} {qb : Bool} {qw : Mat} {qbv : Vec}
    {pw : Mat} {pb : Vec} {ad pd : ℚ} {lt : ℕ} {gw : Ten3} {gb : Vec} {A : AttentionP}
    (h : attnInit pnh dim H qb qw qbv pw pb ad pd lt gw gb = .ok A) :
    A.layerth = lt ∧ A.alpha = 3/5 ∧ A.numHeads = H ∧ A.gConv.K = 1 := by
  unfold attnInit at h
  split_ifs at h <;>
    first
      | exact Except.noConfusion h
      | (injection h with h2; subst h2; exact ⟨rfl, rfl, rfl, rfl⟩)

lemma attnInit_succeeds {pnh : ℕ → ℚ} {dim H : ℕ} {qb : Bool} {qw : Mat} {qbv : Vec}
    {pw : Mat} {pb : Vec} {ad pd : ℚ} {lt : ℕ} {gw : Ten3} {gb : Vec}
    (hH : H ≠ 0) (hmod : dim % H = 0) (hdim : 0 < dim) :
    exOk (attnInit pnh dim H qb qw qbv pw pb ad pd lt gw gb) = true := by
  have hq : 0 < dim / H :=
    Nat.div_pos (Nat.le_of_dvd hdim (Nat.dvd_of_mod_eq_zero hmod)) (Nat.pos_of_ne_zero hH)
  simp [attnInit, exOk, hH, hmod, hq.ne']

lemma blockInit_ok {pnh : ℕ → ℚ} {dim H : ℕ} {mm : ℚ} {qb : Bool}
    {dr ad dpr eps : ℚ} {p : BlockParams} {lt : ℕ} {blk : BlockP}
    (h : blockInit pnh dim H mm qb dr ad dpr eps p lt = .ok blk) :
    blk.layerth = lt ∧ blk.attn.layerth = lt ∧ blk.attn.gConv.K = 1 ∧ blk.attn.alpha = 3/5 := by
  unfold blockInit at h
  split at h
  · exact Except.noConfusion h
  · next a ha =>
      injection h with h2
      subst h2
      obtain ⟨h3, h4, _, h5⟩ := attnInit_ok ha
      exact ⟨rfl, h3, h5, h4⟩

lemma mapE_ok_length {α β : Type} {f : α → Except String β} :
    ∀ {l : List α} {bs : List β}, mapE f l = .ok bs → bs.length = l.length := by
  intro l
  induction l with
  | nil =>
    intro bs h
    injection h with h2
    simp [← h2]
  | cons a tl ih =>
    intro bs h
    unfold mapE at h
    split at h
    · exact Except.noConfusion h
    · next b hb =>
        split at h
        · exact Except.noConfusion h
        · next bs2 hbs2 =>
            injection h with h2
            simp [← h2, ih hbs2]

lemma mapE_ok_get {α β : Type} {f : α → Except String β} :
    ∀ {l : List α} {bs : List β} {i : ℕ} {a : α}, mapE f l = .ok bs → l[i]? = some a →
      ∃ b, f a = .ok b ∧ bs[i]? = some b := by
  intro l
  induction l with
  | nil =>
    intro bs i a _ hg
    simp at hg
  | cons hd tl ih =>
    intro bs i a h hg
    unfold mapE at h
    split at h
    · exact Except.noConfusion h
    · next b hb =>
        split at h
        · exact Except.noConfusion h
        · next bs2 hbs2 =>
            injection h with h2
            subst h2
            cases i with
            | zero =>
              simp at hg
              subst hg
              exact ⟨b, hb, List.getElem?_cons_zero⟩
            | succ i2 =>
              simp only [List.getElem?_cons_succ] at hg ⊢
              exact ih hbs2 hg

lemma viTInit_blocks {a : ViTArgs} {M : ViTP} (h : viTInit a = .ok M) :
    M.blocks.length = a.depth ∧
      ∀ i, i < a.depth →
        ∃ blk, M.blocks[i]? = some blk ∧ blk.layerth = i ∧ blk.attn.layerth = i := by
  unfold viTInit at h
  split at h
  · exact Except.noConfusion h
  · next blocks hm =>
      injection h with h2
      subst h2
      refine ⟨by simpa using (mapE_ok_length hm), ?_⟩
      intro i hi
      obtain ⟨blk, hb, hget⟩ := mapE_ok_get hm (List.getElem?_range hi)
      obtain ⟨h3, h4, _, _⟩ := blockInit_ok hb
      exact ⟨blk, hget, h3, h4⟩

lemma attnForward_first {ops : ScalarOps} {training : Bool} {mA : ℕ → ℕ → ℕ → ℕ → Bool}
    {mP : ℕ → ℕ → ℕ → Bool} {A : AttentionP} {x : T3S} {v0 : Option T4S}
    (h : A.layerth = 0) :
    attnForward ops training mA mP A x v0 =
      .ok (.first (attnOutTS ops training mA mP A x (fun _ _ _ _ => 0)) (attnVTS A x)) := by
  simp [attnForward, h, Except.bind]

lemma attnForward_later {ops : ScalarOps} {training : Bool} {mA : ℕ → ℕ → ℕ → ℕ → Bool}
    {mP : ℕ → ℕ → ℕ → Bool} {A : AttentionP} {x : T3S} (w : T4S)
    (h : A.layerth ≠ 0) :
    attnForward ops training mA mP A x (some w) =
      .ok (.later (attnOutTS ops training mA mP A x (attnRes A x.N w.data (vTen A x.C x.data)))) := by
  simp [attnForward, h, Nat.pos_iff_ne_zero, Except.bind]

lemma attnForward_none {ops : ScalarOps} {training : Bool} {mA : ℕ → ℕ → ℕ → ℕ → Bool}
    {mP : ℕ → ℕ → ℕ → Bool} {A : AttentionP} {x : T3S}
    (h : A.layerth ≠ 0) :
    attnForward ops training mA mP A x none =
      .error "AttributeError: NoneType object has no attribute reshape" := by
  simp [attnForward, h, Nat.pos_iff_ne_zero, Except.bind]

lemma blockForward_zero {ops : ScalarOps} {training : Bool} {noise : Noise} {blk : BlockP}
    {x : T3S} {v0 : Option T4S} (h : blk.layerth = 0) (ha : blk.attn.layerth = 0) :
    blockForward ops training noise blk x v0 =
      .ok (.first
        ⟨x.B, x.N, x.C,
          blockTail ops training noise blk x.data
            (attnOutTS ops training (noise.attnMask blk.layerth) (noise.projMask blk.layerth)
              blk.attn ⟨x.B, x.N, x.C, ln3 ops blk.dim blk.norm1 x.data⟩
              (fun _ _ _ _ => 0)).data⟩
        (attnVTS blk.attn ⟨x.B, x.N, x.C, ln3 ops blk.dim blk.norm1 x.data⟩)) := by
  simp [blockForward, h, attnForward_first ha, attnOutTS]

lemma blockForward_later {ops : ScalarOps} {training : Bool} {noise : Noise} {blk : BlockP}
    {x : T3S} (w : T4S) (h : blk.layerth ≠ 0) (ha : blk.attn.layerth ≠ 0) :
    blockForward ops training noise blk x (some w) =
      .ok (.later
        ⟨x.B, x.N, x.C,
          blockTail ops training noise blk x.data
            (attnOutTS ops training (noise.attnMask blk.layerth) (noise.projMask blk.layerth)
              blk.attn ⟨x.B, x.N, x.C, ln3 ops blk.dim blk.norm1 x.data⟩
              (attnRes blk.attn x.N w.data
                (vTen blk.attn x.C (ln3 ops blk.dim blk.norm1 x.data)))).data⟩) := by
  simp [blockForward, h, attnForward_later w ha, attnOutTS]

lemma feedbackStep_err {ops : ScalarOps} {training : Bool} {noise : Noise} {M : ViTP}
    {v0 : T4S} {x : T3S} {i : ℕ} (hget : M.blocks[i]? = none) :
    feedbackStep ops training noise M v0 x i = .error "IndexError: index out of range" := by
  simp [feedbackStep, hget]

lemma feedbackStep_ok {ops : ScalarOps} {training : Bool} {noise : Noise} {M : ViTP}
    (v0 : T4S) (x : T3S) {i : ℕ} {blk : BlockP}
    (hget : M.blocks[i]? = some blk) (h : blk.layerth ≠ 0) (ha : blk.attn.layerth ≠ 0) :
    ∃ x2, blockForward ops training noise blk x (some v0) = .ok (.later x2) ∧
      feedbackStep ops training noise M v0 x i =
        .ok ⟨x2.B, x2.N, x2.C,
          fun b n c =>
            if n = 0 then
              headApp M.numClasses M.reverseHead
                (fun q =>
                  headApp M.numFeatures M.head
                    (preLogitsApp ops M.embedDim M.preLogits
                      (fun c2 => ln3 ops M.embedDim M.norm x2.data b 0 c2))
                    q)
                c
            else x2.data b n c⟩ := by
  refine ⟨_, blockForward_later v0 h ha, ?_⟩
  simp [feedbackStep, hget, blockForward_later v0 h ha]

lemma foldlM_feedback_err {ops : ScalarOps} {training : Bool} {noise : Noise} {M : ViTP}
    {v0 : T4S}
    (hblocks : ∀ j, j < M.blocks.length →
      ∃ blk, M.blocks[j]? = some blk ∧ blk.layerth = j ∧ blk.attn.layerth = j) :
    ∀ (is : List ℕ) (x : T3S), (∀ j ∈ is, 1 ≤ j) → (∃ j ∈ is, M.blocks.length ≤ j) →
      is.foldlM (feedbackStep ops training noise M v0) x =
        .error "IndexError: index out of range" := by
  intro is
  induction is with
  | nil =>
    intro x _ hex
    simp at hex
  | cons j tl ih =>
    intro x h1 hex
    rw [List.foldlM_cons]
    by_cases hj : M.blocks.length ≤ j
    · have hnone : M.blocks[j]? = none := List.getElem?_eq_none hj
      rw [feedbackStep_err hnone]
      rfl
    · push_neg at hj
      obtain ⟨blk, hget, hlt, hat⟩ := hblocks j hj
      have hj1 : 1 ≤ j := h1 j (by simp)
      have hne : blk.layerth ≠ 0 := by rw [hlt]; omega
      have hane : blk.attn.layerth ≠ 0 := by rw [hat]; omega
      obtain ⟨x2, _, hstep⟩ := feedbackStep_ok v0 x hget hne hane
      rw [hstep]
      have htl : ∃ j2 ∈ tl, M.blocks.length ≤ j2 := by
        obtain ⟨j0, hj0m, hj0⟩ := hex
        rcases List.mem_cons.mp hj0m with h | h
        · exact absurd (h ▸ hj0) (by omega)
        · exact ⟨j0, h, hj0⟩
      simpa using ih _ (fun j2 hm => h1 j2 (List.mem_cons_of_mem _ hm)) htl

lemma foldlM_congr_step {f g : T3S → ℕ → Except String T3S} :
    ∀ (is : List ℕ) (x : T3S), (∀ j ∈ is, ∀ x2, f x2 j = g x2 j) →
      is.foldlM f x = is.foldlM g x := by
  intro is
  induction is with
  | nil => intro x _; rfl
  | cons j tl ih =>
    intro x h
    rw [List.foldlM_cons, List.foldlM_cons, h j (by simp) x]
    cases hgj : g x j with
    | error e => rfl
    | ok x2 => simpa using ih x2 (fun j2 hm x3 => h j2 (List.mem_cons_of_mem _ hm) x3)

lemma feedbackStep_take {ops : ScalarOps} {training : Bool} {noise : Noise}
    {ed nc nf nt : ℕ} {pe : T4S → T3S} {ct : Vec} {dt : Option Vec} {po : Mat} {dr : ℚ}
    {blocks : List BlockP} {nrm : LayerNormP} {pl : Option (ℕ × LinearP)}
    {hd rh : Option LinearP} {dst : Bool} {hdd : Option LinearP}
    {v0 : T4S} {x : T3S} {i : ℕ} (hi : i < 11) :
    feedbackStep ops training noise
        (ViTP.mk ed nc nf nt pe ct dt po dr (blocks.take 11) nrm pl hd rh dst hdd) v0 x i
      = feedbackStep ops training noise
          (ViTP.mk ed nc nf nt pe ct dt po dr blocks nrm pl hd rh dst hdd) v0 x i := by
  simp [feedbackStep, List.getElem?_take, hi]

lemma ffTail_take11 (ops : ScalarOps) (training : Bool) (noise : Noise)
    (ed nc nf nt : ℕ) (pe : T4S → T3S) (ct : Vec) (dt : Option Vec) (po : Mat) (dr : ℚ)
    (blocks : List BlockP) (nrm : LayerNormP) (pl : Option (ℕ × LinearP))
    (hd rh : Option LinearP) (dst : Bool) (hdd : Option LinearP) (x1 : T3S) :
    ffTail ops training noise
        (ViTP.mk ed nc nf nt pe ct dt po dr (blocks.take 11) nrm pl hd rh dst hdd) x1
      = ffTail ops training noise
          (ViTP.mk ed nc nf nt pe ct dt po dr blocks nrm pl hd rh dst hdd) x1 := by
  have hfold : ∀ (x2 : T3S) (v0 : T4S),
      (List.range' 1 10).foldlM
          (feedbackStep ops training noise
            (ViTP.mk ed nc nf nt pe ct dt po dr (blocks.take 11) nrm pl hd rh dst hdd) v0) x2
        = (List.range' 1 10).foldlM
            (feedbackStep ops training noise
              (ViTP.mk ed nc nf nt pe ct dt po dr blocks nrm pl hd rh dst hdd) v0) x2 := by
    intro x2 v0
    refine foldlM_congr_step _ _ (fun j hj x3 => feedbackStep_take ?_)
    obtain ⟨i2, hi2, rfl⟩ := List.mem_range'.mp hj
    omega
  have h0 : (blocks.take 11)[0]? = blocks[0]? := by
    rw [List.getElem?_take]
    simp
  unfold ffTail
  dsimp only
  rw [h0]
  cases hg : blocks[0]? with
  | none => rfl
  | some blk0 =>
    dsimp only
    cases hbf : blockForward ops training noise blk0 x1 none with
    | error e => rfl
    | ok bo =>
      cases bo with
      | later y => rfl
      | first x2 v0 =>
        dsimp only
        rw [hfold x2 v0]

lemma forwardFeatures_take11 (ops : ScalarOps) (training : Bool) (noise : Noise)
    (M : ViTP) (img : T4S) :
    forwardFeatures ops training noise { M with blocks := M.blocks.take 11 } img
      = forwardFeatures ops training noise M img := by
  obtain ⟨ed, nc, nf, nt, pe, ct, dt, po, dr, blocks, nrm, pl, hd, rh, dst, hdd⟩ := M
  exact ffTail_take11 ops training noise ed nc nf nt pe ct dt po dr blocks nrm pl hd rh dst hdd _

lemma ffTail_small_depth {a : ViTArgs} {M : ViTP} (hM : viTInit a = .ok M)
    (hd : a.depth < 11) (ops : ScalarOps) (training : Bool) (noise : Noise) (x1 : T3S) :
    ffTail ops training noise M x1 = .error "IndexError: index out of range" := by
  obtain ⟨hlen, hb⟩ := viTInit_blocks hM
  by_cases h0 : a.depth = 0
  · have hnone : M.blocks[0]? = none := List.getElem?_eq_none (by omega)
    simp [ffTail, hnone]
  · obtain ⟨blk0, hget0, hl0, ha0⟩ := hb 0 (by omega)
    have hbl : ∀ j, j < M.blocks.length →
        ∃ blk, M.blocks[j]? = some blk ∧ blk.layerth = j ∧ blk.attn.layerth = j :=
      fun j hj => hb j (by omega)
    have h1 : ∀ j ∈ List.range' 1 10, 1 ≤ j := by
      intro j hj
      obtain ⟨i2, hi2, rfl⟩ := List.mem_range'.mp hj
      omega
    have hex : ∃ j ∈ List.range' 1 10, M.blocks.length ≤ j := by
      by_cases h1d : a.depth ≤ 1
      · exact ⟨1, List.mem_range'.mpr ⟨0, by omega, by omega⟩, by omega⟩
      · exact ⟨a.depth, List.mem_range'.mpr ⟨a.depth - 1, by omega, by omega⟩, by omega⟩
    have hfold : ∀ (x2 : T3S) (v0 : T4S),
        (List.range' 1 10).foldlM (feedbackStep ops training noise M v0) x2 =
          .error "IndexError: index out of range" :=
      fun x2 v0 => foldlM_feedback_err hbl (List.range' 1 10) x2 h1 hex
    simp [ffTail, hget0, blockForward_zero hl0 ha0, hfold]

def zV : Vec := fun _ => 0

def zM : Mat := fun _ _ => 0

def z3 : Ten3 := fun _ _ _ => 0

def z4 : Ten4 := fun _ _ _ _ => 0

def oneV : Vec := fun _ => 1

/-- A concrete choice of the abstract scalar functions, used to evaluate
the model at concrete inputs. -/
def zOps : ScalarOps := ⟨fun _ => 1, fun q => q, fun q => q, fun _ => 1⟩

def zNoise : Noise :=
  ⟨fun _ _ _ => true, fun _ _ _ _ _ => true, fun _ _ _ _ => true,
    fun _ _ _ _ => true, fun _ _ _ _ => true, fun _ _ => true, fun _ _ => true⟩

def zBP : BlockParams := ⟨zM, zV, zM, zV, z3, zV, oneV, zV, oneV, zV, zM, zV, zM, zV⟩

/-- Like `zBP` but with a nonzero attention projection bias, used to make
one block observably different from another. -/
def oBP : BlockParams := { zBP with projB := oneV }

def junkAttn : AttentionP := ⟨1, 1, ⟨zM, zV⟩, ⟨zM, zV⟩, 0, 0, 1, ⟨1, 1, 1, 0, 1, z3, zV⟩, 0, 0⟩

def junkViT : ViTP :=
  ⟨1, 1, 1, 1, fun _ => ⟨1, 1, 1, z3⟩, zV, none, zM, 0, [], ⟨oneV, zV, 0⟩, none, none, none,
    false, none⟩

def exGetD {α : Type} (e : Except String α) (d : α) : α :=
  match e with
  | .ok v => v
  | .error _ => d

/-- A depth-12 configuration with one patch token, one channel, one head
and one class, all-zero weights. -/
def dArgs : ViTArgs :=
  { pnh := fun _ => 1
    patchEmbedF := fun _ => ⟨1, 1, 1, z3⟩
    numClasses := 1
    embedDim := 1
    depth := 12
    numHeads := 1
    mlpMult := 4
    qkvBias := true
    repSize := none
    distilled := false
    dropRate := 0
    attnDropRate := 0
    dropPathRate := 0
    clsToken := zV
    distTokenP := zV
    posEmbed := zM
    blockPs := fun _ => zBP
    normG := oneV
    normB := zV
    plFcW := zM
    plFcB := zV
    headW := zM
    headB := zV
    revW := zM
    revB := zV
    hdW := zM
    hdB := zV }

/-- Configuration `dArgs` with block 11 given a different attention projection bias. -/
def oArgs : ViTArgs := { dArgs with blockPs := fun i => if i = 11 then oBP else zBP }

def dM12 : ViTP := exGetD (viTInit dArgs) junkViT

def oM12 : ViTP := exGetD (viTInit oArgs) junkViT

def imgZ : T4S := ⟨1, 3, 2, 2, z4⟩

/-- C1: the claim states that for depth exceeding 11 the forward pass
runs every block with index i > 10 (merely skipping the feedback
rewrite), and that for depth 12 block 11 contributes to the output of
`forward_features`.  This is false: the source loop is
`for i in range(1, 11)`, so blocks with index greater than 10 are never
executed at all.  Here two depth-12 models whose parameters differ
exactly in block 11 (observably: the attention projection bias of block
11 is 1 in one and 0 in the other) produce identical `forward_features`
results on a concrete input, on which the run also completes. -/
theorem c1_counterexample :
    exOk (viTInit oArgs) = true ∧ exOk (viTInit dArgs) = true ∧
    oArgs.depth = 12 ∧ dArgs.depth = 12 ∧
    Option.map (fun blk => blk.attn.proj.bias 0) oM12.blocks[11]? = some 1 ∧
    Option.map (fun blk => blk.attn.proj.bias 0) dM12.blocks[11]? = some 0 ∧
    exOk (forwardFeatures zOps false zNoise oM12 imgZ) = true ∧
    forwardFeatures zOps false zNoise oM12 imgZ = forwardFeatures zOps false zNoise dM12 imgZ := by
  refine ⟨rfl, rfl, rfl, rfl, rfl, rfl, rfl, ?_⟩
  have h1 : ({ oM12 with blocks := oM12.blocks.take 11 } : ViTP)
      = { dM12 with blocks := dM12.blocks.take 11 } := rfl
  calc forwardFeatures zOps false zNoise oM12 imgZ
      = forwardFeatures zOps false zNoise { oM12 with blocks := oM12.blocks.take 11 } imgZ :=
        (forwardFeatures_take11 _ _ _ _ _).symm
    _ = forwardFeatures zOps false zNoise { dM12 with blocks := dM12.blocks.take 11 } imgZ := by
        rw [h1]
    _ = forwardFeatures zOps false zNoise dM12 imgZ := forwardFeatures_take11 _ _ _ _ _

/-- C1 (amended): for every configured depth, the forward pass never
executes a block with index greater than 10: `forward_features` depends
only on the first eleven blocks, so replacing the block list by its
length-11 prefix leaves the result unchanged; in particular for
depth 12, block 11 is not executed and does not contribute. -/
theorem c1_amended_blocks_after_ten_ignored (ops : ScalarOps) (training : Bool)
    (noise : Noise) (M : ViTP) (img : T4S) :
    forwardFeatures ops training noise { M with blocks := M.blocks.take 11 } img
      = forwardFeatures ops training noise M img :=
  forwardFeatures_take11 ops training noise M img

/-- Configuration `dArgs` with depth 3. -/
def a3 : ViTArgs := { dArgs with depth := 3 }

def m3 : ViTP := exGetD (viTInit a3) junkViT

/-- Configuration `dArgs` with depth 11. -/
def a11 : ViTArgs := { dArgs with depth := 11 }

def m11 : ViTP := exGetD (viTInit a11) junkViT

/-- C4 counterexample: the claim states that every configured depth
strictly below 12 makes the feedback loop access an out-of-range block
index.  Depth 11 is a counterexample: all block indices 0..10 exist, and
`forward_features` completes without error. -/
theorem c4_counterexample :
    a11.depth < 12 ∧ exOk (viTInit a11) = true ∧
    exOk (forwardFeatures zOps false zNoise m11 imgZ) = true :=
  ⟨by decide, rfl, rfl⟩

/-- C4 (amended): for every configured depth strictly below 11, the
hard-coded feedback loop (or, for depth 0, the initial `blocks[0]`
access) hits a block index beyond the configured depth, and
`forward_features` fails with the out-of-range IndexError instead of
completing.  Depth 11 completes (see the counterexample). -/
theorem c4_amended_small_depth_index_error (a : ViTArgs) (M : ViTP)
    (hM : viTInit a = .ok M) (hd : a.depth < 11)
    (ops : ScalarOps) (training : Bool) (noise : Noise) (img : T4S) :
    forwardFeatures ops training noise M img = .error "IndexError: index out of range" := by
  unfold forwardFeatures
  exact ffTail_small_depth hM hd ops training noise _

/-- C4 witness: a concrete depth-3 model hits the IndexError. -/
theorem c4_witness :
    viTInit a3 = .ok m3 ∧ a3.depth < 11 ∧
    forwardFeatures zOps false zNoise m3 imgZ = .error "IndexError: index out of range" :=
  ⟨rfl, by decide, c4_amended_small_depth_index_error a3 m3 rfl (by decide) zOps false zNoise imgZ⟩

/-- C2: for every layer index i in 1 .. min(depth-1, 10), the
orchestrator runs block i with `v0` and, immediately after, computes
`mid_logits = head(pre_logits(norm(x)[:, 0]))` from the post-block
class-token representation and assigns `x[:, 0, :] = reverse_head(mid_logits)`
before the next block consumes the sequence; the rewrite changes only
sequence index 0 and leaves every index n ≥ 1 at its post-block value.
The index i is indeed visited by the loop (`i ∈ range(1, 11)`). -/
theorem c2_feedback_rewrites_class_token_only (a : ViTArgs) (M : ViTP)
    (hM : viTInit a = .ok M) (ops : ScalarOps) (training : Bool) (noise : Noise)
    (i : ℕ) (hi : 1 ≤ i) (hle : i ≤ min (a.depth - 1) 10) (v0 : T4S) (x : T3S) :
    i ∈ List.range' 1 10 ∧
    ∃ blk x2, M.blocks[i]? = some blk ∧
      blockForward ops training noise blk x (some v0) = .ok (.later x2) ∧
      feedbackStep ops training noise M v0 x i =
        .ok ⟨x2.B, x2.N, x2.C,
          fun b n c =>
            if n = 0 then
              headApp M.numClasses M.reverseHead
                (fun q =>
                  headApp M.numFeatures M.head
                    (preLogitsApp ops M.embedDim M.preLogits
                      (fun c2 => ln3 ops M.embedDim M.norm x2.data b 0 c2))
                    q)
                c
            else x2.data b n c⟩ := by
  obtain ⟨hlen, hb⟩ := viTInit_blocks hM
  have hid : i < a.depth := by omega
  obtain ⟨blk, hget, hl, ha⟩ := hb i hid
  have hne : blk.layerth ≠ 0 := by omega
  have hane : blk.attn.layerth ≠ 0 := by omega
  obtain ⟨x2, hbf, hstep⟩ := feedbackStep_ok v0 x hget hne hane
  exact ⟨List.mem_range'.mpr ⟨i - 1, by omega, by omega⟩, blk, x2, hget, hbf, hstep⟩

def tok3 : T3S := ⟨1, 2, 1, z3⟩

def v4 : T4S := ⟨1, 1, 2, 1, z4⟩

/-- C2 witness: the concrete depth-12 model, layer index 1. -/
theorem c2_witness :
    viTInit dArgs = .ok dM12 ∧ (1 : ℕ) ≤ 1 ∧ 1 ≤ min (dArgs.depth - 1) 10 ∧
    ((1 : ℕ) ∈ List.range' 1 10 ∧
      ∃ blk x2, dM12.blocks[1]? = some blk ∧
        blockForward zOps false zNoise blk tok3 (some v4) = .ok (.later x2) ∧
        feedbackStep zOps false zNoise dM12 v4 tok3 1 =
          .ok ⟨x2.B, x2.N, x2.C,
            fun b n c =>
              if n = 0 then
                headApp dM12.numClasses dM12.reverseHead
                  (fun q =>
                    headApp dM12.numFeatures dM12.head
                      (preLogitsApp zOps dM12.embedDim dM12.preLogits
                        (fun c2 => ln3 zOps dM12.embedDim dM12.norm x2.data b 0 c2))
                      q)
                  c
              else x2.data b n c⟩) :=
  ⟨rfl, le_refl 1, by decide,
    c2_feedback_rewrites_class_token_only dArgs dM12 rfl zOps false zNoise 1 (le_refl 1)
      (by decide) v4 tok3⟩

/-- C3: for a constructed attention module with layer index > 0 and a
supplied `v0`, the correction term equals 0.6 times the adjoint
convolution applied to (v0 reshaped minus g_conv of v reshaped), with
head_dim as the channel axis, reshaped back to (B, num_heads, N,
head_dim); the pre-projection attention output is (attention_weights @ v)
plus the correction, and for layer index 0 the correction contribution
is zero. -/
theorem c3_correction_formula (pnh : ℕ → ℚ) (dim H : ℕ) (qb : Bool) (qw : Mat) (qbv : Vec)
    (pw : Mat) (pb : Vec) (ad pd : ℚ) (gw : Ten3) (gb : Vec) (lt : ℕ) (A A0 : AttentionP)
    (hA : attnInit pnh dim H qb qw qbv pw pb ad pd lt gw gb = .ok A)
    (h0 : attnInit pnh dim H qb qw qbv pw pb ad pd 0 gw gb = .ok A0)
    (hlt : 0 < lt) (ops : ScalarOps) (training : Bool) (mA : ℕ → ℕ → ℕ → ℕ → Bool)
    (mP : ℕ → ℕ → ℕ → Bool) (x : T3S) (w : T4S) :
    (attnRes A x.N w.data (vTen A x.C x.data) = fun b h n d =>
      (6/10 : ℚ) *
        adjointConv A.gConv x.N
          (fun c m =>
            vResh A.numHeads w.data (b * A.numHeads + h) c m
              - convApply A.gConv x.N
                  (vResh A.numHeads (vTen A x.C x.data) (b * A.numHeads + h)) c m)
          d n)
    ∧ attnForward ops training mA mP A x (some w) =
        .ok (.later (attnOutTS ops training mA mP A x (attnRes A x.N w.data (vTen A x.C x.data))))
    ∧ (attnPre ops training mA A x (attnRes A x.N w.data (vTen A x.C x.data)) = fun b h n d =>
        (∑ j in Finset.range x.N,
          drop4 training A.attnDropP mA (attnSoft ops A x.C x.N x.data) b h n j
            * vTen A x.C x.data b h j d)
        + attnRes A x.N w.data (vTen A x.C x.data) b h n d)
    ∧ attnForward ops training mA mP A0 x none =
        .ok (.first (attnOutTS ops training mA mP A0 x (fun _ _ _ _ => 0)) (attnVTS A0 x))
    ∧ (attnPre ops training mA A0 x (fun _ _ _ _ => 0) = fun b h n d =>
        ∑ j in Finset.range x.N,
          drop4 training A0.attnDropP mA (attnSoft ops A0 x.C x.N x.data) b h n j
            * vTen A0 x.C x.data b h j d) := by
  obtain ⟨hAl, hAa, -, -⟩ := attnInit_ok hA
  obtain ⟨h0l, -, -, -⟩ := attnInit_ok h0
  refine ⟨?_, attnForward_later w (by omega), rfl, attnForward_first h0l, ?_⟩
  · funext b h n d
    simp only [attnRes]
    rw [hAa]
    norm_num
  · funext b h n d
    simp [attnPre]

def cAttn0 : AttentionP := exGetD (attnInit (fun _ => 1) 1 1 true zM zV zM zV 0 0 0 z3 zV) junkAttn

def cAttn1 : AttentionP := exGetD (attnInit (fun _ => 1) 1 1 true zM zV zM zV 0 0 1 z3 zV) junkAttn

def tMask4 : ℕ → ℕ → ℕ → ℕ → Bool := fun _ _ _ _ => true

def tMask3 : ℕ → ℕ → ℕ → Bool := fun _ _ _ => true

/-- C3 witness: concrete one-head, one-channel modules at layers 1 and 0. -/
theorem c3_witness :
    attnInit (fun _ => 1) 1 1 true zM zV zM zV 0 0 1 z3 zV = .ok cAttn1 ∧
    attnInit (fun _ => 1) 1 1 true zM zV zM zV 0 0 0 z3 zV = .ok cAttn0 ∧
    (0 : ℕ) < 1 ∧
    (attnRes cAttn1 tok3.N v4.data (vTen cAttn1 tok3.C tok3.data) = fun b h n d =>
      (6/10 : ℚ) *
        adjointConv cAttn1.gConv tok3.N
          (fun c m =>
            vResh cAttn1.numHeads v4.data (b * cAttn1.numHeads + h) c m
              - convApply cAttn1.gConv tok3.N
                  (vResh cAttn1.numHeads (vTen cAttn1 tok3.C tok3.data) (b * cAttn1.numHeads + h)) c m)
          d n) ∧
    attnForward zOps false tMask4 tMask3 cAttn1 tok3 (some v4) =
      .ok (.later (attnOutTS zOps false tMask4 tMask3 cAttn1 tok3
        (attnRes cAttn1 tok3.N v4.data (vTen cAttn1 tok3.C tok3.data)))) ∧
    attnForward zOps false tMask4 tMask3 cAttn0 tok3 none =
      .ok (.first (attnOutTS zOps false tMask4 tMask3 cAttn0 tok3 (fun _ _ _ _ => 0))
        (attnVTS cAttn0 tok3)) := by
  obtain ⟨h1, h2, -, h4, -⟩ :=
    c3_correction_formula (fun _ => 1) 1 1 true zM zV zM zV 0 0 z3 zV 1 cAttn1 cAttn0 rfl rfl
      Nat.one_pos zOps false tMask4 tMask3 tok3 v4
  exact ⟨rfl, rfl, Nat.one_pos, h1, h2, h4⟩

/-- C5: a layer-0 attention call on input of shape (B, N, C) returns the
pair (output, v) with output shaped (B, N, C) and v shaped
(B, num_heads, N, C / num_heads), while a layer-index-> 0 call (with its
required `v0`) returns only the output, not a pair. -/
theorem c5_return_shapes (pnh : ℕ → ℚ) (dim H : ℕ) (qb : Bool) (qw : Mat) (qbv : Vec)
    (pw : Mat) (pb : Vec) (ad pd : ℚ) (gw : Ten3) (gb : Vec) (lt : ℕ) (A A0 : AttentionP)
    (hA : attnInit pnh dim H qb qw qbv pw pb ad pd lt gw gb = .ok A)
    (h0 : attnInit pnh dim H qb qw qbv pw pb ad pd 0 gw gb = .ok A0)
    (hlt : 0 < lt) (ops : ScalarOps) (training : Bool) (mA : ℕ → ℕ → ℕ → ℕ → Bool)
    (mP : ℕ → ℕ → ℕ → Bool) (x : T3S) (w : T4S) :
    attnForward ops training mA mP A0 x none =
      .ok (.first (attnOutTS ops training mA mP A0 x (fun _ _ _ _ => 0)) (attnVTS A0 x))
    ∧ (attnOutTS ops training mA mP A0 x (fun _ _ _ _ => 0)).B = x.B
    ∧ (attnOutTS ops training mA mP A0 x (fun _ _ _ _ => 0)).N = x.N
    ∧ (attnOutTS ops training mA mP A0 x (fun _ _ _ _ => 0)).C = x.C
    ∧ (attnVTS A0 x).d0 = x.B
    ∧ (attnVTS A0 x).d1 = A0.numHeads
    ∧ (attnVTS A0 x).d2 = x.N
    ∧ (attnVTS A0 x).d3 = x.C / A0.numHeads
    ∧ attnForward ops training mA mP A x (some w) =
        .ok (.later (attnOutTS ops training mA mP A x
          (attnRes A x.N w.data (vTen A x.C x.data)))) := by
  obtain ⟨hAl, -, -, -⟩ := attnInit_ok hA
  obtain ⟨h0l, -, -, -⟩ := attnInit_ok h0
  exact ⟨attnForward_first h0l, rfl, rfl, rfl, rfl, rfl, rfl, rfl,
    attnForward_later w (by omega)⟩

def c5A0 : AttentionP := exGetD (attnInit (fun _ => 1) 64 8 true zM zV zM zV 0 0 0 z3 zV) junkAttn

def c5A1 : AttentionP := exGetD (attnInit (fun _ => 1) 64 8 true zM zV zM zV 0 0 1 z3 zV) junkAttn

def c5x : T3S := ⟨1, 16, 64, z3⟩

def c5w : T4S := ⟨1, 8, 16, 8, z4⟩

/-- C5 witness: B=1, N=16, C=64, num_heads=8 — the returned value tensor
has shape exactly (1, 8, 16, 8) and the output shape is (1, 16, 64). -/
theorem c5_witness :
    (0 : ℕ) < 1 ∧
    attnForward zOps false tMask4 tMask3 c5A0 c5x none =
      .ok (.first (attnOutTS zOps false tMask4 tMask3 c5A0 c5x (fun _ _ _ _ => 0))
        (attnVTS c5A0 c5x)) ∧
    (attnOutTS zOps false tMask4 tMask3 c5A0 c5x (fun _ _ _ _ => 0)).B = 1 ∧
    (attnOutTS zOps false tMask4 tMask3 c5A0 c5x (fun _ _ _ _ => 0)).N = 16 ∧
    (attnOutTS zOps false tMask4 tMask3 c5A0 c5x (fun _ _ _ _ => 0)).C = 64 ∧
    (attnVTS c5A0 c5x).d0 = 1 ∧ (attnVTS c5A0 c5x).d1 = 8 ∧
    (attnVTS c5A0 c5x).d2 = 16 ∧ (attnVTS c5A0 c5x).d3 = 8 ∧
    attnForward zOps false tMask4 tMask3 c5A1 c5x (some c5w) =
      .ok (.later (attnOutTS zOps false tMask4 tMask3 c5A1 c5x
        (attnRes c5A1 c5x.N c5w.data (vTen c5A1 c5x.C c5x.data)))) := by
  obtain ⟨h1, h2, h3, h4, h5, h6, h7, h8, h9⟩ :=
    c5_return_shapes (fun _ => 1) 64 8 true zM zV zM zV 0 0 z3 zV 1 c5A1 c5A0 rfl rfl
      Nat.one_pos zOps false tMask4 tMask3 c5x c5w
  exact ⟨Nat.one_pos, h1, h2, h3, h4, h5, h6, h7, h8, h9⟩

/-- C6: an attention module with layer index > 0 called without `v0`
fails with the AttributeError that `None.reshape` raises in Python; it
never silently treats the correction as zero. -/
theorem c6_missing_v0_fails (pnh : ℕ → ℚ) (dim H : ℕ) (qb : Bool) (qw : Mat) (qbv : Vec)
    (pw : Mat) (pb : Vec) (ad pd : ℚ) (gw : Ten3) (gb : Vec) (lt : ℕ) (A : AttentionP)
    (hA : attnInit pnh dim H qb qw qbv pw pb ad pd lt gw gb = .ok A)
    (hlt : 0 < lt) (ops : ScalarOps) (training : Bool) (mA : ℕ → ℕ → ℕ → ℕ → Bool)
    (mP : ℕ → ℕ → ℕ → Bool) (x : T3S) :
    attnForward ops training mA mP A x none =
      .error "AttributeError: NoneType object has no attribute reshape" := by
  obtain ⟨hAl, -, -, -⟩ := attnInit_ok hA
  exact attnForward_none (by omega)

/-- C6 witness: the concrete layer-1 module fails on a missing `v0`. -/
theorem c6_witness :
    attnInit (fun _ => 1) 1 1 true zM zV zM zV 0 0 1 z3 zV = .ok cAttn1 ∧ (0 : ℕ) < 1 ∧
    attnForward zOps false tMask4 tMask3 cAttn1 tok3 none =
      .error "AttributeError: NoneType object has no attribute reshape" :=
  ⟨rfl, Nat.one_pos,
    c6_missing_v0_fails (fun _ => 1) 1 1 true zM zV zM zV 0 0 z3 zV 1 cAttn1 rfl Nat.one_pos
      zOps false tMask4 tMask3 tok3⟩

/-- C7 counterexample: the claim states construction succeeds for every
pair with embed_dim % num_heads == 0.  It fails at (dim, num_heads) =
(0, 1): the assert passes (0 % 1 == 0), but line 26 computes
`head_dim ** -0.5` with head_dim = 0, which raises ZeroDivisionError in
Python, so construction does not succeed. -/
theorem c7_counterexample :
    (0 : ℕ) % 1 = 0 ∧
    attnInit (fun _ => 1) 0 1 true zM zV zM zV 0 0 0 z3 zV =
      .error "ZeroDivisionError: 0.0 cannot be raised to a negative power" :=
  ⟨rfl, rfl⟩

/-- C7 (amended): for positive num_heads, construction succeeds for
every pair with embed_dim % num_heads == 0 and embed_dim > 0, and fails
with the divisibility assertion for every pair with
embed_dim % num_heads != 0; the (0, h) pairs fail despite being
divisible (see the counterexample). -/
theorem c7_amended_construction (pnh : ℕ → ℚ) (qb : Bool) (qw : Mat) (qbv : Vec)
    (pw : Mat) (pb : Vec) (ad pd : ℚ) (lt : ℕ) (gw : Ten3) (gb : Vec)
    (dim H : ℕ) (hH : 0 < H) :
    (dim % H = 0 → 0 < dim → exOk (attnInit pnh dim H qb qw qbv pw pb ad pd lt gw gb) = true)
    ∧ (dim % H ≠ 0 → attnInit pnh dim H qb qw qbv pw pb ad pd lt gw gb =
        .error "AssertionError: dim should be divisible by num_heads") := by
  constructor
  · intro hmod hdim
    exact attnInit_succeeds (by omega) hmod hdim
  · intro hmod
    simp [attnInit, hmod, Nat.pos_iff_ne_zero.mp hH]

/-- C7 witness: (64, 8) constructs, (65, 8) fails the assertion. -/
theorem c7_witness :
    (0 : ℕ) < 8 ∧ (64 % 8 = 0 ∧ (0 : ℕ) < 64 ∧
      exOk (attnInit (fun _ => 1) 64 8 true zM zV zM zV 0 0 0 z3 zV) = true) ∧
    (65 % 8 ≠ 0 ∧
      attnInit (fun _ => 1) 65 8 true zM zV zM zV 0 0 0 z3 zV =
        .error "AssertionError: dim should be divisible by num_heads") := by
  obtain ⟨hs, -⟩ :=
    c7_amended_construction (fun _ => 1) true zM zV zM zV 0 0 0 z3 zV 64 8 (by decide)
  obtain ⟨-, he⟩ :=
    c7_amended_construction (fun _ => 1) true zM zV zM zV 0 0 0 z3 zV 65 8 (by decide)
  exact ⟨by decide, ⟨by decide, by decide, hs (by decide) (by decide)⟩,
    ⟨by decide, he (by decide)⟩⟩

/-- C8: `adjoint_conv` computes a 1D convolution whose weight is the
kernel-axis-reversed weight of the forward convolution, with bias,
stride, padding and dilation identical to those of the forward
application: both expand to the same padded sum, the adjoint with
`weight[co][ci][K-1-k]` and the forward with `weight[co][ci][k]`. -/
theorem c8_adjoint_uses_flipped_kernel (P : Conv1dP) (L : ℕ) (x : Mat) (co n : ℕ) :
    adjointConv P L x co n =
      (∑ ci in Finset.range P.inCh, ∑ k in Finset.range P.K,
        P.weight co ci (P.K - 1 - k)
          * padded P.padding L (fun m => x ci m) (n * P.stride + k * P.dilation))
      + P.bias co
    ∧ convApply P L x co n =
      (∑ ci in Finset.range P.inCh, ∑ k in Finset.range P.K,
        P.weight co ci k
          * padded P.padding L (fun m => x ci m) (n * P.stride + k * P.dilation))
      + P.bias co :=
  ⟨rfl, rfl⟩

/-- C10: because `g_conv` has kernel size 1, reversing the kernel axis
is the identity, so the adjoint application coincides extensionally with
the forward application of `g_conv`. -/
theorem c10_adjoint_equals_forward (pnh : ℕ → ℚ) (dim H : ℕ) (qb : Bool) (qw : Mat)
    (qbv : Vec) (pw : Mat) (pb : Vec) (ad pd : ℚ) (lt : ℕ) (gw : Ten3) (gb : Vec)
    (A : AttentionP)
    (hA : attnInit pnh dim H qb qw qbv pw pb ad pd lt gw gb = .ok A)
    (L : ℕ) (x : Mat) :
    adjointConv A.gConv L x = convApply A.gConv L x := by
  obtain ⟨-, -, -, hK⟩ := attnInit_ok hA
  funext co n
  simp [adjointConv, convApply, conv1dW, flipKernel, hK]

/-- C10 witness: the concrete layer-1 module. -/
theorem c10_witness :
    attnInit (fun _ => 1) 1 1 true zM zV zM zV 0 0 1 z3 zV = .ok cAttn1 ∧
    adjointConv cAttn1.gConv 4 zM = convApply cAttn1.gConv 4 zM :=
  ⟨rfl, c10_adjoint_equals_forward (fun _ => 1) 1 1 true zM zV zM zV 0 0 1 z3 zV cAttn1 rfl 4 zM⟩

/-- C9: in eval mode, with fixed parameters, the full forward pass is a
deterministic function of its input: its result does not depend on the
dropout randomness, so two runs on the same input agree. -/
theorem c9_eval_deterministic (ops : ScalarOps) (M : ViTP) (noise1 noise2 : Noise)
    (img : T4S) :
    viTForward ops false noise1 M img = viTForward ops false noise2 M img := rfl

end ViTMBO
